import Mathlib

/-!
Verification development for the PDF-Restructure repository
(`Sorting program/Conversion & Sort 0.0.1.py` and `0.0.2.py`).

The Python functions are shallowly embedded as Lean definitions:
pure functions become Lean functions, Python exceptions become `Except`
errors, Python dicts (which preserve insertion order) become association
lists, floats become rationals, and PIL images become opaque `Nat`
identifiers.  Claims about the classifier, the progress counter, the
category buckets and the output assembler are then proved or refuted
against these definitions.
-/

namespace PDFRestructure

/-- A bounding box `(x0, y0, x1, y1)` in page coordinate space.
Python floats are modelled as rationals. -/
structure BBox where
  x0 : ℚ
  y0 : ℚ
  x1 : ℚ
  y1 : ℚ
deriving DecidableEq, Repr

/-- One layout feature: trimmed text content plus a bounding box
(`extract_layout_features`, v0.0.2 lines 48-58). -/
structure LayoutFeature where
  text : String
  bounding_box : BBox
deriving DecidableEq, Repr

/-- A classification template of v0.0.2: one entry of the `templates` dict,
in declaration order.  `rules["header_keywords"]` is a list of keywords,
`rules["layout_features"]` is optional (`"layout_features" in rules`). -/
structure Template where
  company : String
  header_keywords : List String
  layout_features : Option (List LayoutFeature)
deriving DecidableEq, Repr

/-- Python's substring test `needle in haystack` on character lists. -/
def substrAux : List Char → List Char → Bool
  | n, [] => n.isEmpty
  | n, h :: t => List.isPrefixOf n (h :: t) || substrAux n t

/-- Python's substring test `keyword in text` on strings. -/
def substrB (needle haystack : String) : Bool :=
  substrAux needle.data haystack.data

/-- Whether a zipped pair of features counts toward the similarity score
(v0.0.2 line 66): both top-left coordinates differ by strictly less
than 10 units. -/
def closePair (f1 f2 : LayoutFeature) : Bool :=
  decide (|f1.bounding_box.x0 - f2.bounding_box.x0| < 10) &&
  decide (|f1.bounding_box.y0 - f2.bounding_box.y0| < 10)

/-- `compare_layouts` (v0.0.2 lines 61-68): count the positionally zipped
pairs whose top-left corners are close, then divide by
`max(len(features1), len(features2))`.  When both lists are empty the
Python code divides by zero and raises `ZeroDivisionError`; that case is
modelled as `none`. -/
def compare_layouts (features1 features2 : List LayoutFeature) : Option ℚ :=
  let similarity := ((features1.zip features2).filter fun p => closePair p.1 p.2).length
  if max features1.length features2.length = 0 then none
  else some ((similarity : ℚ) / (max features1.length features2.length : ℚ))

/-- `identify_page` (v0.0.2 lines 71-80): iterate templates in declaration
order; `text_match` is any-keyword-substring; when the template declares
`layout_features`, `compare_layouts` is evaluated (and its
`ZeroDivisionError`, modelled as `Except.error`, propagates even when
`text_match` is true); the first template with
`text_match or layout_similarity > 0.8` wins; `None` when no template
matches. -/
def identify_page (text : String) (layout_features : List LayoutFeature) :
    List Template → Except String (Option String)
  | [] => .ok none
  | t :: ts =>
    let text_match := t.header_keywords.any fun keyword => substrB keyword text
    let sim : Except String ℚ :=
      match t.layout_features with
      | none => .ok 0
      | some template_features =>
        match compare_layouts layout_features template_features with
        | none => .error "ZeroDivisionError"
        | some s => .ok s
    match sim with
    | .error e => .error e
    | .ok layout_similarity =>
      if text_match || decide (layout_similarity > (8 : ℚ) / 10) then
        .ok (some t.company)
      else
        identify_page text layout_features ts

/-- The match condition of a single template, read off the loop body of
`identify_page`: keyword substring match, or layout similarity strictly
above 0.8; the layout comparison's division error propagates. -/
def template_matches (text : String) (layout_features : List LayoutFeature)
    (t : Template) : Except String Bool :=
  let text_match := t.header_keywords.any fun keyword => substrB keyword text
  match t.layout_features with
  | none => .ok text_match
  | some template_features =>
    match compare_layouts layout_features template_features with
    | none => .error "ZeroDivisionError"
    | some s => .ok (text_match || decide (s > (8 : ℚ) / 10))

/-- Spec-side classifier, written from the spec's words: return the
category of the FIRST template, in declaration order, whose match
condition holds; `none` ("unmatched") when no template matches.  Errors
of the match condition propagate. -/
def first_match (text : String) (layout_features : List LayoutFeature) :
    List Template → Except String (Option String)
  | [] => .ok none
  | t :: ts =>
    match template_matches text layout_features t with
    | .error e => .error e
    | .ok true => .ok (some t.company)
    | .ok false => first_match text layout_features ts

/-- Spec-side layout similarity, written from the spec's words: the number
of positionally zipped pairs (up to the shorter sequence) whose top-left
corners lie within the 10-unit tolerance in each axis, divided by the
length of the longer sequence. -/
def layout_similarity_spec (f1 f2 : List LayoutFeature) : ℚ :=
  (((f1.zip f2).countP fun p => closePair p.1 p.2 : ℕ) : ℚ) /
    (max f1.length f2.length : ℚ)

/-- Regular expressions for the field-extraction patterns of v0.0.1
(`regex_patterns`).  The external `re` collaborator is modelled by a small
backtracking engine over this abstract syntax: literal characters,
any-character, concatenation, alternation and greedy star. -/
inductive Rx where
  | eps : Rx
  | char : Char → Rx
  | dot : Rx
  | seq : Rx → Rx → Rx
  | alt : Rx → Rx → Rx
  | star : Rx → Rx
deriving DecidableEq, Repr

/-- Greedy star: expand first-step results of `m` that make strict progress,
preferring more repetitions, with the zero-repetition result last.  `fuel`
bounds the recursion depth; `fuel = s.length` always suffices because each
step strictly shortens the input. -/
def starMatches (m : List Char → List (List Char)) : Nat → List Char → List (List Char)
  | 0, s => [s]
  | fuel + 1, s =>
    (((m s).filter fun s1 => decide (s1.length < s.length)).flatMap fun s1 =>
      starMatches m fuel s1) ++ [s]

/-- Backtracking matcher: `rxMatches r s` lists the suffixes of `s` left over
after a match of `r` at the start of `s`, in Python-`re` priority order
(alternation left-first, star greedy). -/
def rxMatches : Rx → List Char → List (List Char)
  | .eps, s => [s]
  | .char _, [] => []
  | .char c, a :: t => if a = c then [t] else []
  | .dot, [] => []
  | .dot, _ :: t => [t]
  | .seq r1 r2, s => (rxMatches r1 s).flatMap fun s1 => rxMatches r2 s1
  | .alt r1 r2, s => rxMatches r1 s ++ rxMatches r2 s
  | .star r, s => starMatches (rxMatches r) s.length s

/-- Leftmost search: try each start position left to right; at the first
position where `r` matches, return the consumed prefix of the highest
priority match (Python `re.search` followed by `match.group()`). -/
def search (r : Rx) : List Char → Option (List Char)
  | [] => if (rxMatches r []).isEmpty then none else some []
  | a :: t =>
    match (rxMatches r (a :: t)).head? with
    | some rem => some ((a :: t).take ((a :: t).length - rem.length))
    | none => search r t

/-- `re.search(pattern, text)` followed by `match.group()`: the full matched
substring of the first match, or `none` when the pattern never matches. -/
def re_search (pattern : Rx) (text : String) : Option String :=
  (search pattern text.data).map fun l => ⟨l⟩

/-- A classification template of v0.0.1: keywords plus a mapping from field
name to extraction pattern (`rules["regex_patterns"]`), in declaration
order. -/
structure TemplateV1 where
  company : String
  header_keywords : List String
  regex_patterns : List (String × Rx)

/-- `identify_company` (v0.0.1 lines 55-59): first template, in declaration
order, one of whose header keywords occurs in the text. -/
def identify_company (text : String) : List TemplateV1 → Option String
  | [] => none
  | t :: ts =>
    if t.header_keywords.any fun keyword => substrB keyword text then
      some t.company
    else identify_company text ts

/-- `extract_data` (v0.0.1 lines 62-68): when the company is a key of the
template dict, map every declared field pattern to the full substring of
its first match in the text, or `none` when the pattern has no match. -/
def extract_data (text : String) (templates : List TemplateV1)
    (company : Option String) : List (String × Option String) :=
  match company with
  | none => []
  | some c =>
    match templates.find? fun t => t.company == c with
    | none => []
    | some t => t.regex_patterns.map fun kp => (kp.1, re_search kp.2 text)

/-- Python `dict.get`: `none` both when the key is absent and when it is
present with value `None` (the two are indistinguishable to `.get`). -/
def dict_get (d : List (String × Option String)) (k : String) : Option String :=
  match d.find? fun kv => kv.1 == k with
  | none => none
  | some kv => kv.2

/-- File naming of v0.0.1 `process_page` (lines 92-94):
`order_number = extracted_data.get("Order Number") if extracted_data else
None`, then `f"{order_number}.png" if order_number else
f"page_{page_number + 1}.png"`; Python truthiness sends both `None` and
the empty string to the fallback name. -/
def file_name (extracted_data : List (String × Option String))
    (page_number : Nat) : String :=
  let order_number : Option String :=
    if extracted_data.isEmpty then none else dict_get extracted_data "Order Number"
  match order_number with
  | some s =>
    if s = "" then "page_" ++ toString (page_number + 1) ++ ".png"
    else s ++ ".png"
  | none => "page_" ++ toString (page_number + 1) ++ ".png"

/-- One page-unit of the v0.0.2 batch: the extracted text and layout
features, the rendered image (an opaque identifier), and whether the
extraction steps of `process_page` succeed (`extract_ok = false` models a
page whose processing raises and is caught at line 111). -/
structure Page where
  text : String
  layout_features : List LayoutFeature
  image : Nat
  extract_ok : Bool
deriving DecidableEq, Repr

/-- `company_images[company].append(image)` with
`if company not in company_images: company_images[company] = []`
(v0.0.2 lines 102-104): Python dicts preserve insertion order, so a new
category is appended at the end. -/
def bucket_append (buckets : List (String × List Nat)) (company : String)
    (image : Nat) : List (String × List Nat) :=
  if buckets.any fun b => b.1 == company then
    buckets.map fun b => if b.1 == company then (b.1, b.2 ++ [image]) else b
  else buckets ++ [(company, [image])]

/-- `process_page` (v0.0.2 lines 83-112): on successful extraction, classify
the page; a matched page's image is appended to its category bucket; an
unmatched page, a classification error (the caught `ZeroDivisionError`)
and a failed extraction all leave the buckets unchanged.  Every exception
is caught, so the function always returns. -/
def process_page (templates : List Template) (buckets : List (String × List Nat))
    (p : Page) : List (String × List Nat) :=
  if p.extract_ok then
    match identify_page p.text p.layout_features templates with
    | .error _ => buckets
    | .ok none => buckets
    | .ok (some company) => bucket_append buckets company p.image
  else buckets

/-- The bucket appends happen inside the worker threads at completion time
(v0.0.2 line 104), so the final buckets are the fold of `process_page`
over the pages in WORKER COMPLETION ORDER, which the thread pool does not
constrain. -/
def run_buckets (templates : List Template) (completion_order : List Page) :
    List (String × List Nat) :=
  completion_order.foldl (process_page templates) []

/-- Up-front total page count (v0.0.2 line 139): sum of page counts over all
input documents. -/
def total_pages (docs : List (List Page)) : Nat :=
  (docs.map List.length).sum

/-- `process_files` (v0.0.2 lines 134-152): for each document, for each of
its pages, one `process_page` task; each task yields exactly one result
(even a failed page returns normally), and per result the main loop
increments `completed_pages` by one.  Returns the final counter, the
trace of counter values passed to the progress bar, and the final
buckets (here threaded in task order). -/
def process_files_run (templates : List Template) (docs : List (List Page)) :
    Nat × List Nat × List (String × List Nat) :=
  docs.foldl
    (fun acc doc =>
      doc.foldl
        (fun acc2 p =>
          (acc2.1 + 1, acc2.2.1 ++ [acc2.1 + 1], process_page templates acc2.2.2 p))
        acc)
    (0, [], [])

/-- One output artifact: the path written by `create_company_pdfs`
(`<company>/<company>.pdf`) and the images it contains, in bucket
order. -/
structure Artifact where
  path : String
  pages : List Nat
deriving DecidableEq, Repr

/-- `create_company_pdfs` (v0.0.2 lines 115-131), failure-free path: one
multi-page artifact per category, pages in bucket order. -/
def create_company_pdfs (buckets : List (String × List Nat)) : List Artifact :=
  buckets.map fun b => ⟨b.1 ++ "/" ++ b.1 ++ ".pdf", b.2⟩

/-- `create_company_pdfs` with fallible writes: `fails c = true` models an
`OSError`/write failure while assembling category `c` (folder creation,
image save, or PDF output).  The loop body has no per-category handler,
so the first failure raises out of the whole loop: no later category is
assembled; the artifacts of earlier categories are already on disk.
Returns the artifacts written and the failing category, if any. -/
def create_company_pdfs_fallible (fails : String → Bool) :
    List (String × List Nat) → List Artifact × Option String
  | [] => ([], none)
  | b :: rest =>
    if fails b.1 then ([], some b.1)
    else
      let r := create_company_pdfs_fallible fails rest
      (⟨b.1 ++ "/" ++ b.1 ++ ".pdf", b.2⟩ :: r.1, r.2)

/-- The template source as seen through the file-system boundary of
`load_templates`: the file may be missing (`open` raises
`FileNotFoundError`), present but not valid JSON (`json.load` raises
`JSONDecodeError`), or valid. -/
inductive TemplateSource where
  | missing : TemplateSource
  | malformed : TemplateSource
  | valid : List Template → TemplateSource

/-- `load_templates` (v0.0.2 lines 26-32, identical in v0.0.1 lines 33-39):
the `try` block catches ONLY `FileNotFoundError`, returning the empty
dict; a decode error on a malformed file is not caught and propagates. -/
def load_templates : TemplateSource → Except String (List Template)
  | .missing => .ok []
  | .malformed => .error "JSONDecodeError"
  | .valid ts => .ok ts

/-! ### Helper lemmas -/

theorem zero_not_gt_simthreshold : ¬ ((0 : ℚ) > 8 / 10) := by norm_num

theorem decide_zero_gt : (decide ((0 : ℚ) > 8 / 10)) = false :=
  decide_eq_false zero_not_gt_simthreshold

theorem identify_page_eq_first_match (text : String) (feats : List LayoutFeature) :
    ∀ ts : List Template, identify_page text feats ts = first_match text feats ts := by
  intro ts
  induction ts with
  | nil => rfl
  | cons t ts ih =>
    simp only [identify_page, first_match, template_matches]
    cases h : t.layout_features with
    | none =>
      by_cases htm : (t.header_keywords.any fun keyword => substrB keyword text) = true
      · simp [htm]
      · simp [htm, zero_not_gt_simthreshold, ih]
    | some tf =>
      cases hc : compare_layouts feats tf with
      | none => dsimp only; rw [hc]
      | some s =>
        dsimp only
        rw [hc]
        cases hb : ((t.header_keywords.any fun keyword => substrB keyword text) ||
            decide (s > (8 : ℚ) / 10)) with
        | true => simp [hb]
        | false => simp [hb, ih]

theorem first_match_cons_true {text : String} {feats : List LayoutFeature}
    {t : Template} (ts : List Template)
    (h : template_matches text feats t = .ok true) :
    first_match text feats (t :: ts) = .ok (some t.company) := by
  simp [first_match, h]

theorem first_match_ok_none {text : String} {feats : List LayoutFeature} :
    ∀ {ts : List Template}, first_match text feats ts = .ok none →
      ∀ t ∈ ts, template_matches text feats t = .ok false := by
  intro ts
  induction ts with
  | nil => intro _ t ht; simp at ht
  | cons t0 ts ih =>
    intro h t ht
    simp only [first_match] at h
    cases hm : template_matches text feats t0 with
    | error e => rw [hm] at h; exact absurd h (by simp)
    | ok b =>
      cases b with
      | true => rw [hm] at h; exact absurd h (by simp)
      | false =>
        rw [hm] at h
        rcases List.mem_cons.mp ht with rfl | hmem
        · exact hm
        · exact ih h t hmem

theorem identify_company_eq_find (text : String) :
    ∀ ts : List TemplateV1, identify_company text ts =
      (ts.find? fun t => t.header_keywords.any fun keyword => substrB keyword text).map
        (fun t => t.company) := by
  intro ts
  induction ts with
  | nil => rfl
  | cons t ts ih =>
    simp only [identify_company, List.find?]
    by_cases h : (t.header_keywords.any fun keyword => substrB keyword text) = true
    · simp [h]
    · simp only [Bool.not_eq_true] at h
      simp [h, ih]

/-! ### Claims -/

/-- C1: for every templates store and every input, the classifier returns the
category of the first template, in declaration order, whose match condition
holds (first-match-wins): `identify_page` coincides with the spec-side
`first_match`; when two consecutive templates both satisfy their match
condition the earlier-declared wins; `None` ("unmatched") is returned only
when no template matches; and the v0.0.1 `identify_company` is the
declaration-order `find?` of the keyword condition. -/
theorem classifier_first_match_wins :
    (∀ text feats ts, identify_page text feats ts = first_match text feats ts) ∧
    (∀ text feats t1 t2 ts, template_matches text feats t1 = .ok true →
      template_matches text feats t2 = .ok true →
      identify_page text feats (t1 :: t2 :: ts) = .ok (some t1.company)) ∧
    (∀ text feats ts, identify_page text feats ts = .ok none →
      ∀ t ∈ ts, template_matches text feats t = .ok false) ∧
    (∀ text ts, identify_company text ts =
      (ts.find? fun t => t.header_keywords.any fun keyword => substrB keyword text).map
        (fun t => t.company)) := by
  refine ⟨identify_page_eq_first_match, ?_, ?_, identify_company_eq_find⟩
  · intro text feats t1 t2 ts h1 _h2
    rw [identify_page_eq_first_match]
    exact first_match_cons_true _ h1
  · intro text feats ts h
    rw [identify_page_eq_first_match] at h
    exact first_match_ok_none h

/-- Witness for C1 at a concrete input: templates declared in order `[A, B]`,
page text containing both A's and B's keywords, so both match conditions
hold; the result is A. -/
theorem classifier_first_match_wins_witness :
    identify_page "hello ACME" []
      [⟨"A", ["ACME"], none⟩, ⟨"B", ["hello"], none⟩] = .ok (some "A") :=
  classifier_first_match_wins.2.1 "hello ACME" []
    ⟨"A", ["ACME"], none⟩ ⟨"B", ["hello"], none⟩ [] (by rfl) (by rfl)

theorem closePair_symm (a b : LayoutFeature) : closePair a b = closePair b a := by
  simp only [closePair, abs_sub_comm]

theorem zip_filter_close_symm (f1 f2 : List LayoutFeature) :
    ((f2.zip f1).filter fun p => closePair p.1 p.2).length =
    ((f1.zip f2).filter fun p => closePair p.1 p.2).length := by
  rw [← List.countP_eq_length_filter, ← List.countP_eq_length_filter,
    ← List.zip_swap f1 f2, List.countP_map]
  refine List.countP_congr ?_
  intro p _
  simp [Function.comp, closePair_symm]

/-- C3: `compare_layouts` applied to two empty feature sequences.  The
Python code computes `similarity / max(len(features1), len(features2))`
with divisor `max(0, 0) = 0` and raises `ZeroDivisionError` (modelled as
`none`); the claim (and spec §4.3) requires the similarity to be defined
as 0 instead. -/
theorem compare_layouts_empty_empty_raises : compare_layouts [] [] = none := rfl

/-- C10: the layout-similarity function is symmetric — the pair-closeness
test is symmetric in the two boxes, the positional zip truncates to the
common length either way, and the divisor `max` of the lengths is
symmetric. -/
theorem compare_layouts_symm (f1 f2 : List LayoutFeature)
    (_h : f1 ≠ [] ∨ f2 ≠ []) :
    compare_layouts f1 f2 = compare_layouts f2 f1 := by
  simp only [compare_layouts, zip_filter_close_symm, Nat.max_comm f2.length f1.length,
    max_comm ((f2.length : ℚ)) ((f1.length : ℚ))]

/-- Witness for C10 at a concrete input: one singleton list, one empty
list. -/
theorem compare_layouts_symm_witness :
    compare_layouts [⟨"a", ⟨0, 0, 5, 5⟩⟩] [] = compare_layouts [] [⟨"a", ⟨0, 0, 5, 5⟩⟩] :=
  compare_layouts_symm [⟨"a", ⟨0, 0, 5, 5⟩⟩] [] (Or.inl (by simp))

theorem compare_layouts_eq_spec (f1 f2 : List LayoutFeature)
    (h : f1 ≠ [] ∨ f2 ≠ []) :
    compare_layouts f1 f2 = some (layout_similarity_spec f1 f2) := by
  have hmax : ¬ (max f1.length f2.length = 0) := by
    rcases h with h | h
    · have h1 := List.length_pos.mpr h
      have := Nat.le_max_left f1.length f2.length
      omega
    · have h1 := List.length_pos.mpr h
      have := Nat.le_max_right f1.length f2.length
      omega
  simp only [compare_layouts, layout_similarity_spec, hmax, if_false,
    List.countP_eq_length_filter]

theorem template_matches_iff (text : String) (feats : List LayoutFeature)
    (t : Template) (tf : List LayoutFeature) (hl : t.layout_features = some tf)
    (h : feats ≠ [] ∨ tf ≠ []) :
    template_matches text feats t = .ok true ↔
      ((∃ k ∈ t.header_keywords, substrB k text = true) ∨
        layout_similarity_spec feats tf > (8 : ℚ) / 10) := by
  simp only [template_matches, hl, compare_layouts_eq_spec feats tf h]
  simp [List.any_eq_true, decide_eq_true_iff]

/-- C4: for every page feature list and template reference feature list (not
both empty, so that the fraction is defined and the Python division does
not raise), the computed layout similarity is exactly the number of
positionally zipped pairs whose top-left corners lie within the 10-unit
tolerance in each axis divided by the longer length; and a template that
declares reference features matches iff some header keyword is a
substring of the text or this similarity exceeds 0.8. -/
theorem layout_similarity_fraction_and_match_condition :
    (∀ f1 f2 : List LayoutFeature, (f1 ≠ [] ∨ f2 ≠ []) →
      compare_layouts f1 f2 = some (layout_similarity_spec f1 f2)) ∧
    (∀ (text : String) (feats : List LayoutFeature) (t : Template)
        (tf : List LayoutFeature), t.layout_features = some tf →
      (feats ≠ [] ∨ tf ≠ []) →
      (template_matches text feats t = .ok true ↔
        ((∃ k ∈ t.header_keywords, substrB k text = true) ∨
          layout_similarity_spec feats tf > (8 : ℚ) / 10))) :=
  ⟨compare_layouts_eq_spec, template_matches_iff⟩

/-- Witness for C4 at a concrete input: a page with one feature compared
against an identical reference feature has similarity `1 > 0.8`, so the
template matches even though it declares no keyword occurring in the
text. -/
theorem layout_similarity_witness :
    compare_layouts [⟨"h", ⟨0, 0, 5, 5⟩⟩] [⟨"h", ⟨2, 3, 9, 9⟩⟩] =
      some (layout_similarity_spec [⟨"h", ⟨0, 0, 5, 5⟩⟩] [⟨"h", ⟨2, 3, 9, 9⟩⟩]) ∧
    template_matches "body" [⟨"h", ⟨0, 0, 5, 5⟩⟩]
      ⟨"A", ["ZZZ"], some [⟨"h", ⟨2, 3, 9, 9⟩⟩]⟩ = .ok true := by
  refine ⟨layout_similarity_fraction_and_match_condition.1 _ _ (Or.inl (by simp)), ?_⟩
  refine (layout_similarity_fraction_and_match_condition.2 "body"
    [⟨"h", ⟨0, 0, 5, 5⟩⟩] ⟨"A", ["ZZZ"], some [⟨"h", ⟨2, 3, 9, 9⟩⟩]⟩
    [⟨"h", ⟨2, 3, 9, 9⟩⟩] rfl (Or.inl (by simp))).mpr (Or.inr ?_)
  norm_num [layout_similarity_spec, closePair]

theorem inner_fold_spec (templates : List Template) (doc : List Page) :
    ∀ acc : Nat × List Nat × List (String × List Nat),
      (doc.foldl
        (fun acc2 p =>
          (acc2.1 + 1, acc2.2.1 ++ [acc2.1 + 1], process_page templates acc2.2.2 p))
        acc).1 = acc.1 + doc.length ∧
      (doc.foldl
        (fun acc2 p =>
          (acc2.1 + 1, acc2.2.1 ++ [acc2.1 + 1], process_page templates acc2.2.2 p))
        acc).2.1 = acc.2.1 ++ List.range' (acc.1 + 1) doc.length := by
  induction doc with
  | nil => intro acc; simp
  | cons p doc ih =>
    intro acc
    simp only [List.foldl_cons, List.length_cons]
    have h := ih (acc.1 + 1, acc.2.1 ++ [acc.1 + 1], process_page templates acc.2.2 p)
    refine ⟨by rw [h.1]; omega, ?_⟩
    rw [h.2, List.range'_succ, List.append_assoc]
    rfl

theorem process_files_run_spec (templates : List Template) (docs : List (List Page)) :
    ∀ acc : Nat × List Nat × List (String × List Nat),
      (docs.foldl
        (fun acc doc => doc.foldl
          (fun acc2 p =>
            (acc2.1 + 1, acc2.2.1 ++ [acc2.1 + 1], process_page templates acc2.2.2 p))
          acc)
        acc).1 = acc.1 + total_pages docs ∧
      (docs.foldl
        (fun acc doc => doc.foldl
          (fun acc2 p =>
            (acc2.1 + 1, acc2.2.1 ++ [acc2.1 + 1], process_page templates acc2.2.2 p))
          acc)
        acc).2.1 = acc.2.1 ++ List.range' (acc.1 + 1) (total_pages docs) := by
  induction docs with
  | nil => intro acc; simp [total_pages]
  | cons doc docs ih =>
    intro acc
    simp only [List.foldl_cons]
    have h1 := inner_fold_spec templates doc acc
    have h2 := ih (doc.foldl
      (fun acc2 p =>
        (acc2.1 + 1, acc2.2.1 ++ [acc2.1 + 1], process_page templates acc2.2.2 p)) acc)
    have htot : total_pages (doc :: docs) = doc.length + total_pages docs := by
      simp [total_pages]
    refine ⟨by rw [h2.1, h1.1, htot]; omega, ?_⟩
    rw [h2.2, h1.2, h1.1, htot, List.append_assoc]
    have : List.range' (acc.1 + 1) doc.length ++
        List.range' (acc.1 + doc.length + 1) (total_pages docs) =
        List.range' (acc.1 + 1) (doc.length + total_pages docs) := by
      have := List.range'_append (acc.1 + 1) doc.length (total_pages docs) 1
      simp only [one_mul] at this
      rw [show acc.1 + 1 + doc.length = acc.1 + doc.length + 1 by omega] at this
      rw [this, Nat.add_comm (total_pages docs) doc.length]
    rw [this]

theorem run_completed_eq (templates : List Template) (docs : List (List Page)) :
    (process_files_run templates docs).1 = total_pages docs := by
  have h := (process_files_run_spec templates docs (0, [], [])).1
  simpa [process_files_run] using h

theorem run_trace_eq (templates : List Template) (docs : List (List Page)) :
    (process_files_run templates docs).2.1 = List.range' 1 (total_pages docs) := by
  have h := (process_files_run_spec templates docs (0, [], [])).2
  simpa [process_files_run] using h

theorem chain'_le_range' : ∀ (n s : Nat), List.Chain' (· ≤ ·) (List.range' s n)
  | 0, _ => by simp
  | 1, s => by simp [List.range'_succ]
  | (n + 2), s => by
    rw [List.range'_succ, List.range'_succ, List.chain'_cons]
    refine ⟨by omega, ?_⟩
    rw [← List.range'_succ]
    exact chain'_le_range' (n + 1) (s + 1)

/-- C2: for every batch run — including runs in which every page fails
extraction, since the counter update never looks at the page outcome —
the completed-pages counter trace is exactly `[1, 2, ..., total]`:
monotonically non-decreasing, bounded by the up-front total page count,
with one increment per page, and the final counter equals the total. -/
theorem progress_counter_invariants (templates : List Template)
    (docs : List (List Page)) :
    (process_files_run templates docs).1 = total_pages docs ∧
    (process_files_run templates docs).2.1 = List.range' 1 (total_pages docs) ∧
    List.Chain' (· ≤ ·) (process_files_run templates docs).2.1 ∧
    (∀ x ∈ (process_files_run templates docs).2.1, x ≤ total_pages docs) ∧
    (process_files_run templates docs).2.1.length = total_pages docs := by
  refine ⟨run_completed_eq templates docs, run_trace_eq templates docs, ?_, ?_, ?_⟩
  · rw [run_trace_eq]; exact chain'_le_range' _ _
  · intro x hx
    rw [run_trace_eq] at hx
    have := List.mem_range'_1.mp hx
    omega
  · rw [run_trace_eq, List.length_range']

/-- Witness for C2 at a concrete input: two one-page documents whose pages
both fail extraction; the final counter still equals the total `2`, and
the trace value `2` is bounded by the total. -/
theorem progress_counter_invariants_witness :
    (process_files_run [] [[⟨"", [], 1, false⟩], [⟨"", [], 2, false⟩]]).1 =
      total_pages [[⟨"", [], 1, false⟩], [⟨"", [], 2, false⟩]] ∧
    (2 : ℕ) ≤ total_pages [[⟨"", [], 1, false⟩], [⟨"", [], 2, false⟩]] :=
  ⟨(progress_counter_invariants [] [[⟨"", [], 1, false⟩], [⟨"", [], 2, false⟩]]).1,
   (progress_counter_invariants [] [[⟨"", [], 1, false⟩], [⟨"", [], 2, false⟩]]).2.2.2.1
     2 (by decide)⟩

/-- C5: the bucket appends of v0.0.2 happen inside the worker threads at
completion time (line 104), so the final per-category page sequence
follows the WORKER COMPLETION ORDER, not document-enumeration order: for
the claimed batch of 2 documents with 3 and 2 pages all matched to
category "X", a completion order that finishes doc1-page2 before
doc1-page1 yields bucket order `[2, 1, 3, 4, 5]`, while enumeration-order
completion yields `[1, 2, 3, 4, 5]`.  This refutes the claim that the
bucket order is enumeration order regardless of completion order. -/
theorem bucket_order_follows_completion_order :
    run_buckets [⟨"X", ["X-HDR"], none⟩]
      [⟨"X-HDR", [], 1, true⟩, ⟨"X-HDR", [], 2, true⟩, ⟨"X-HDR", [], 3, true⟩,
       ⟨"X-HDR", [], 4, true⟩, ⟨"X-HDR", [], 5, true⟩] = [("X", [1, 2, 3, 4, 5])] ∧
    run_buckets [⟨"X", ["X-HDR"], none⟩]
      [⟨"X-HDR", [], 2, true⟩, ⟨"X-HDR", [], 1, true⟩, ⟨"X-HDR", [], 3, true⟩,
       ⟨"X-HDR", [], 4, true⟩, ⟨"X-HDR", [], 5, true⟩] = [("X", [2, 1, 3, 4, 5])] ∧
    [("X", [2, 1, 3, 4, 5])] ≠ [("X", [1, 2, 3, 4, 5])] := by
  refine ⟨by rfl, by rfl, by decide⟩

/-- C6 counterexample: a malformed template source.  `load_templates` wraps
only `FileNotFoundError` in its `except` clause, so the decode error of a
present-but-malformed file propagates instead of yielding the empty
template set; the claim that every missing-or-malformed source yields an
empty set without a fatal error is false. -/
theorem load_templates_malformed_raises :
    load_templates TemplateSource.malformed = .error "JSONDecodeError" := rfl

/-- C6 as amended: a MISSING template source yields the empty template set
without a fatal error, and classification against an empty template set
always yields "unmatched" (in both versions); a malformed source instead
raises its decode error. -/
theorem load_templates_missing_empty_set :
    load_templates TemplateSource.missing = .ok [] ∧
    (∀ text feats, identify_page text feats [] = .ok none) ∧
    (∀ text, identify_company text [] = none) :=
  ⟨rfl, fun _ _ => rfl, fun _ => rfl⟩

theorem mem_bucket_append (buckets : List (String × List Nat)) (c : String)
    (i x : Nat) (b : String × List Nat) (hb : b ∈ bucket_append buckets c i)
    (hx : x ∈ b.2) : (∃ b0 ∈ buckets, x ∈ b0.2) ∨ x = i := by
  unfold bucket_append at hb
  by_cases hc : (buckets.any fun b => b.1 == c) = true
  · rw [if_pos hc] at hb
    rcases List.mem_map.mp hb with ⟨b0, hb0, rfl⟩
    by_cases he : (b0.1 == c) = true
    · rw [if_pos he] at hx
      simp only at hx
      rcases List.mem_append.mp hx with h | h
      · exact Or.inl ⟨b0, hb0, h⟩
      · simp at h; exact Or.inr h
    · rw [if_neg he] at hx
      exact Or.inl ⟨b0, hb0, hx⟩
  · rw [if_neg hc] at hb
    rcases List.mem_append.mp hb with h | h
    · exact Or.inl ⟨b, h, hx⟩
    · simp only [List.mem_singleton] at h
      subst h
      simp at hx
      exact Or.inr hx

theorem run_buckets_images_from_matched (templates : List Template) :
    ∀ (pages : List Page) (acc : List (String × List Nat)) (b : String × List Nat)
      (x : Nat), b ∈ pages.foldl (process_page templates) acc → x ∈ b.2 →
      (∃ b0 ∈ acc, x ∈ b0.2) ∨
      ∃ q ∈ pages, q.extract_ok = true ∧
        (∃ c, identify_page q.text q.layout_features templates = .ok (some c)) ∧
        q.image = x := by
  intro pages
  induction pages with
  | nil =>
    intro acc b x hb hx
    exact Or.inl ⟨b, hb, hx⟩
  | cons p pages ih =>
    intro acc b x hb hx
    simp only [List.foldl_cons] at hb
    rcases ih _ b x hb hx with h | ⟨q, hq, h1, h2, h3⟩
    · rcases h with ⟨b0, hb0, hx0⟩
      unfold process_page at hb0
      by_cases hok : p.extract_ok = true
      · rw [if_pos hok] at hb0
        cases hid : identify_page p.text p.layout_features templates with
        | error e =>
          rw [hid] at hb0
          exact Or.inl ⟨b0, hb0, hx0⟩
        | ok oc =>
          cases oc with
          | none =>
            rw [hid] at hb0
            exact Or.inl ⟨b0, hb0, hx0⟩
          | some c =>
            rw [hid] at hb0
            rcases mem_bucket_append acc c p.image x b0 hb0 hx0 with h' | h'
            · exact Or.inl h'
            · exact Or.inr ⟨p, List.mem_cons_self p pages, hok, ⟨c, hid⟩, h'.symm⟩
      · rw [if_neg hok] at hb0
        exact Or.inl ⟨b0, hb0, hx0⟩
    · exact Or.inr ⟨q, List.mem_cons_of_mem p hq, h1, h2, h3⟩

/-- C7: an "unmatched" page (classifier returns `None`) leaves the buckets
unchanged; over a whole run (in any completion order) its image never
appears in any CategoryBucket nor in any output artifact; yet the
completed-pages counter counts it exactly like every other page — one
increment per page and a final count equal to the total. -/
theorem unmatched_pages_unrouted_but_counted :
    (∀ templates buckets (p : Page), p.extract_ok = true →
      identify_page p.text p.layout_features templates = .ok none →
      process_page templates buckets p = buckets) ∧
    (∀ templates (pages : List Page) (p : Page), p ∈ pages →
      identify_page p.text p.layout_features templates = .ok none →
      (∀ q ∈ pages, q.image = p.image → q = p) →
      (∀ b ∈ run_buckets templates pages, p.image ∉ b.2) ∧
      (∀ a ∈ create_company_pdfs (run_buckets templates pages), p.image ∉ a.pages)) ∧
    (∀ templates docs,
      (process_files_run templates docs).2.1.length = total_pages docs ∧
      (process_files_run templates docs).1 = total_pages docs) := by
  refine ⟨?_, ?_, ?_⟩
  · intro templates buckets p hok hid
    unfold process_page
    rw [if_pos hok, hid]
  · intro templates pages p hp hid huniq
    have hbuckets : ∀ b ∈ run_buckets templates pages, p.image ∉ b.2 := by
      intro b hb hx
      rcases run_buckets_images_from_matched templates pages [] b p.image hb hx with
        h | ⟨q, hq, _h1, ⟨c, hc⟩, h3⟩
      · rcases h with ⟨b0, hb0, _⟩
        simp at hb0
      · have := huniq q hq h3
        subst this
        rw [hid] at hc
        exact absurd hc (by simp)
    refine ⟨hbuckets, ?_⟩
    intro a ha hx
    unfold create_company_pdfs at ha
    rcases List.mem_map.mp ha with ⟨b, hb, rfl⟩
    exact hbuckets b hb hx
  · intro templates docs
    exact ⟨(progress_counter_invariants templates docs).2.2.2.2,
      run_completed_eq templates docs⟩

/-- Witness for C7 at a concrete input: pages `[matched, unmatched]`; the
unmatched page's image `2` is absent from the single resulting bucket
`("X", [1])`. -/
theorem unmatched_pages_unrouted_but_counted_witness :
    (2 : ℕ) ∉ (("X", [1]) : String × List Nat).2 :=
  ((unmatched_pages_unrouted_but_counted.2.1 [⟨"X", ["X-HDR"], none⟩]
      [⟨"X-HDR", [], 1, true⟩, ⟨"no match here", [], 2, true⟩]
      ⟨"no match here", [], 2, true⟩ (by simp)
      (by simp [identify_page, substrB, substrAux, decide_zero_gt])
      (by
        intro q hq hqi
        rcases List.mem_cons.mp hq with h | h
        · subst h; simp_all
        · exact List.mem_singleton.mp h)).1
    ("X", [1])
    (by simp [run_buckets, process_page, identify_page, substrB, substrAux,
      decide_zero_gt, bucket_append]))

/-- C8: an assembly failure on one category is NOT scoped to that category.
The `for` loop of `create_company_pdfs` has no per-category handler, so a
folder-creation or write failure on category "A" raises out of the whole
loop: category "B", whose writes succeed, gets no artifact when it comes
after "A" (refuting the claim), and keeps its artifact only when it was
assembled before the failure. -/
theorem assembly_failure_aborts_later_categories :
    (create_company_pdfs_fallible (fun c => c == "A") [("A", [1]), ("B", [2])]).1 = [] ∧
    (fun c => c == "A") "B" = false ∧
    (create_company_pdfs_fallible (fun c => c == "A") [("B", [2]), ("A", [1])]).1 =
      [⟨"B/B.pdf", [2]⟩] := by
  refine ⟨by rfl, by rfl, by rfl⟩

theorem search_none_iff (r : Rx) :
    ∀ s : List Char, search r s = none ↔ ∀ i, rxMatches r (s.drop i) = [] := by
  intro s
  induction s with
  | nil =>
    constructor
    · intro h i
      simp only [List.drop_nil]
      by_contra hne
      have hf : (rxMatches r []).isEmpty = false := by
        cases hx : rxMatches r [] with
        | nil => exact absurd hx hne
        | cons a l => rfl
      simp [search, hf] at h
    · intro h
      have h0 := h 0
      simp only [List.drop_nil] at h0
      simp [search, h0]
  | cons a t ih =>
    cases hh : (rxMatches r (a :: t)).head? with
    | some rem =>
      constructor
      · intro h
        simp [search, hh] at h
      · intro h
        exfalso
        have h0 := h 0
        simp only [List.drop_zero] at h0
        rw [h0] at hh
        simp at hh
    | none =>
      have hempty : rxMatches r (a :: t) = [] := by
        cases hx : rxMatches r (a :: t) with
        | nil => rfl
        | cons b l => rw [hx] at hh; simp at hh
      constructor
      · intro h i
        cases i with
        | zero => simpa using hempty
        | succ j =>
          simp only [List.drop_succ_cons]
          refine (ih.mp ?_) j
          simpa [search, hh] using h
      · intro h
        simp only [search, hh]
        exact ih.mpr fun i => by simpa [List.drop_succ_cons] using h (i + 1)

theorem search_some_spec (r : Rx) :
    ∀ s m : List Char, search r s = some m →
      ∃ i, rxMatches r (s.drop i) ≠ [] ∧ (∀ j, j < i → rxMatches r (s.drop j) = []) ∧
        m = (s.drop i).take ((s.drop i).length -
          (((rxMatches r (s.drop i)).head?).getD []).length) := by
  intro s
  induction s with
  | nil =>
    intro m h
    cases hc : (rxMatches r []).isEmpty with
    | true => simp [search, hc] at h
    | false =>
      have hm : m = [] := by
        simp [search, hc] at h
        exact h
      refine ⟨0, ?_, fun j hj => absurd hj (Nat.not_lt_zero j), ?_⟩
      · simp only [List.drop_nil]
        cases hx : rxMatches r [] with
        | nil => rw [hx] at hc; simp at hc
        | cons b l => simp
      · simp [hm]
  | cons a t ih =>
    intro m h
    cases hh : (rxMatches r (a :: t)).head? with
    | some rem =>
      have hm : m = (a :: t).take ((a :: t).length - rem.length) := by
        simp [search, hh] at h
        exact h.symm
      refine ⟨0, ?_, fun j hj => absurd hj (Nat.not_lt_zero j), ?_⟩
      · simp only [List.drop_zero]
        cases hx : rxMatches r (a :: t) with
        | nil => rw [hx] at hh; simp at hh
        | cons b l => simp
      · simp only [List.drop_zero, hh, Option.getD_some]
        exact hm
    | none =>
      have hempty : rxMatches r (a :: t) = [] := by
        cases hx : rxMatches r (a :: t) with
        | nil => rfl
        | cons b l => rw [hx] at hh; simp at hh
      have ht : search r t = some m := by simpa [search, hh] using h
      obtain ⟨i, h1, h2, h3⟩ := ih m ht
      refine ⟨i + 1, ?_, ?_, ?_⟩
      · simpa only [List.drop_succ_cons] using h1
      · intro j hj
        cases j with
        | zero => simpa using hempty
        | succ j' =>
          simp only [List.drop_succ_cons]
          exact h2 j' (by omega)
      · simpa only [List.drop_succ_cons] using h3

/-- C9: in direct-save mode, field extraction maps every declared pattern of
the matched company to the full substring of the pattern's FIRST match in
the text (`none` when absent): `search` returns `none` exactly when no
suffix position admits a match, and a successful search returns the full
consumed prefix at the leftmost matching position (highest-priority
match); and when the naming field ("Order Number") is absent the output
file name falls back to `page_<pageIndex+1>`. -/
theorem field_extraction_first_match_and_fallback :
    (∀ (text : String) (templates : List TemplateV1) (c : String) (t : TemplateV1),
      (templates.find? fun t2 => t2.company == c) = some t →
      extract_data text templates (some c) =
        t.regex_patterns.map fun kp => (kp.1, re_search kp.2 text)) ∧
    (∀ (r : Rx) (s : List Char), search r s = none ↔ ∀ i, rxMatches r (s.drop i) = []) ∧
    (∀ (r : Rx) (s m : List Char), search r s = some m →
      ∃ i, rxMatches r (s.drop i) ≠ [] ∧ (∀ j, j < i → rxMatches r (s.drop j) = []) ∧
        m = (s.drop i).take ((s.drop i).length -
          (((rxMatches r (s.drop i)).head?).getD []).length)) ∧
    (∀ (d : List (String × Option String)) (n : Nat),
      (d.isEmpty = true ∨ dict_get d "Order Number" = none) →
      file_name d n = "page_" ++ toString (n + 1) ++ ".png") := by
  refine ⟨?_, search_none_iff, search_some_spec, ?_⟩
  · intro text templates c t hfind
    simp only [extract_data, hfind]
  · intro d n h
    rcases h with h | h
    · simp [file_name, h]
    · cases hie : d.isEmpty with
      | true => simp [file_name, hie]
      | false => simp [file_name, hie, h]

/-- Witness for C9 at a concrete input: one template with an "Order Number"
pattern, and the fallback name for a page with no extracted data. -/
theorem field_extraction_first_match_and_fallback_witness :
    extract_data "AB7" [⟨"C", ["C"], [("Order Number", Rx.char 'B')]⟩] (some "C") =
      [("Order Number", re_search (Rx.char 'B') "AB7")] ∧
    file_name [] 3 = "page_" ++ toString (3 + 1) ++ ".png" :=
  ⟨field_extraction_first_match_and_fallback.1 "AB7"
      [⟨"C", ["C"], [("Order Number", Rx.char 'B')]⟩] "C"
      ⟨"C", ["C"], [("Order Number", Rx.char 'B')]⟩ rfl,
   field_extraction_first_match_and_fallback.2.2.2 [] 3 (Or.inl rfl)⟩

end PDFRestructure
